import Mathlib

/-!
Verification of the autograding-io-grader grading engine.

This file shallowly embeds the grading decision engine of the repository:
the hierarchical test-result parser `parseGradleTestResults`, the leaf
counting traversal `countPassedTests`, the scoring/branching logic of
`run`, the catch handler of `executeTest`, the comparator `compareOutput`,
and the top-level error envelope construction.  The primary source is the
current entry file (src/unnamed/part_000); the older variant kept at
src/src/main.js is embedded separately where it differs (its
`countPassedTests` switches on the type of the key, and its `executeTest`
catch handler drops the captured stdout).

JavaScript numbers are modelled as exact rationals (`ℚ`), JS objects as
insertion-ordered association lists, and thrown exceptions as
`Except String`.
-/

set_option autoImplicit false

namespace IOGrader

/-! ### Character classes of the JavaScript regexes

`\s` in a JavaScript regex and `String.prototype.trim` both use the JS
whitespace set (ASCII whitespace plus the Unicode space separators and
line terminators).  `.` (without the `s` flag) matches every character
except the four line terminators. -/

/-- Character class of JavaScript `\s` (also the set trimmed by
`String.prototype.trim`). -/
def jsWhitespace (c : Char) : Bool :=
  c == ' ' || c == '\t' || c == '\n' || c == '\r' || c == '\x0b' || c == '\x0c' ||
  c == '\u00A0' || c == '\u1680' ||
  (('\u2000').toNat ≤ c.toNat && c.toNat ≤ ('\u200A').toNat) ||
  c == '\u2028' || c == '\u2029' || c == '\u202F' || c == '\u205F' ||
  c == '\u3000' || c == '\uFEFF'

/-- Character class of `.` in a JavaScript regex without the `s` flag:
everything except the four line terminators. -/
def dotChar (c : Char) : Bool :=
  !(c == '\n' || c == '\r' || c == '\u2028' || c == '\u2029')

/-- JS `String.prototype.trim`: drop JS whitespace from both ends. -/
def jsTrim (l : List Char) : List Char :=
  ((l.dropWhile jsWhitespace).reverse.dropWhile jsWhitespace).reverse

/-- JS `String.prototype.trim` on `String`. -/
def jsTrimStr (s : String) : String :=
  String.mk (jsTrim s.toList)

/-- JS `String.prototype.split('\n')`: split on every newline, keeping
empty segments. -/
def splitNl : List Char → List (List Char)
  | [] => [[]]
  | '\n' :: rest => [] :: splitNl rest
  | c :: rest =>
    match splitNl rest with
    | [] => [[c]]
    | seg :: segs => (c :: seg) :: segs

/-- JS `String.prototype.includes`: substring test (`needle` occurs
somewhere in `hay`). -/
def containsSub (hay needle : List Char) : Bool :=
  needle.isPrefixOf hay ||
    match hay with
    | [] => false
    | _ :: t => containsSub t needle

/-! ### The result-line regex `/(.+)\s+(PASSED|FAILED)/`

`parseGradleTestResults` matches each trimmed line against
`/(.+)\s+(PASSED|FAILED)/`.  JS regex semantics: the match is leftmost;
at the leftmost viable start the greedy `(.+)` captures the longest
prefix of `.`-matchable characters that can still be followed by one or
more whitespace characters and then the literal `PASSED` or `FAILED`
(trailing text after the token is allowed). -/

/-- Does `l` begin with the literal token `PASSED` (`some true`) or
`FAILED` (`some false`)?  The alternation tries `PASSED` first. -/
def tokenAt (l : List Char) : Option Bool :=
  if ("PASSED".toList).isPrefixOf l then some true
  else if ("FAILED".toList).isPrefixOf l then some false
  else none

/-- Greedy `\s+(PASSED|FAILED)` at the start of `r`: take the maximal
whitespace run, then backtrack the run (longest first, at least one
whitespace character) until the token matches. -/
def tokenAfterWsAux : Nat → List Char → Option Bool
  | 0, _ => none
  | j + 1, r =>
    match tokenAt (r.drop (j + 1)) with
    | some b => some b
    | none => tokenAfterWsAux j r

/-- `wsTokenAt r` matches greedy `\s+(PASSED|FAILED)` at the start of
`r`, returning the token. -/
def wsTokenAt (r : List Char) : Option Bool :=
  tokenAfterWsAux ((r.takeWhile jsWhitespace).length) r

/-- `validCutB l s i`: starting the match at position `s`, the group
`(.+)` can capture exactly `l[s..i)` — the captured slice is nonempty,
consists of `.`-matchable characters, and `\s+(PASSED|FAILED)` matches
at position `i`. -/
def validCutB (l : List Char) (s i : Nat) : Bool :=
  decide (s + 1 ≤ i) &&
  ((l.drop s).take (i - s)).all dotChar &&
  (wsTokenAt (l.drop i)).isSome

/-- All viable end positions of the `(.+)` capture when the match starts
at `s`, in increasing order. -/
def cutsFrom (l : List Char) (s : Nat) : List Nat :=
  (List.range l.length).filter (fun i => validCutB l s i)

/-- The JS match `l.match(/(.+)\s+(PASSED|FAILED)/)`: leftmost start
`s`, then the greedy (largest) capture end `i`; returns the capture
`l[s..i)` and the token (`true` for `PASSED`). -/
def matchLine (l : List Char) : Option (List Char × Bool) :=
  match (List.range l.length).find? (fun s => !(cutsFrom l s).isEmpty) with
  | none => none
  | some s =>
    match (cutsFrom l s).getLast? with
    | some i =>
      match wsTokenAt (l.drop i) with
      | some b => some ((l.drop s).take (i - s), b)
      | none => none
    | none => none

/-! ### Splitting the captured prefix on `/\s+>\s+/` -/

/-- Try to match the separator regex `/\s+>\s+/` at the start of `l`:
a nonempty whitespace run, `>`, another nonempty whitespace run.
Returns the remainder after the separator. -/
def trySep (l : List Char) : Option (List Char) :=
  let w1 := l.takeWhile jsWhitespace
  if w1.isEmpty then none
  else
    match l.drop w1.length with
    | '>' :: rest2 =>
      let w2 := rest2.takeWhile jsWhitespace
      if w2.isEmpty then none else some (rest2.drop w2.length)
    | _ => none

/-- Worker for `splitHier`; `fuel` only bounds the recursion (every step
consumes at least one character, so `fuel = length + 1` never runs out). -/
def splitHierAux : Nat → List Char → List Char → List (List Char)
  | 0, cur, rest => [cur.reverse ++ rest]
  | _ + 1, cur, [] => [cur.reverse]
  | fuel + 1, cur, c :: rest =>
    match trySep (c :: rest) with
    | some rest2 => cur.reverse :: splitHierAux fuel [] rest2
    | none => splitHierAux fuel (c :: cur) rest

/-- JS `prefixStr.split(/\s+>\s+/)`: split on each leftmost,
non-overlapping separator match. -/
def splitHier (l : List Char) : List (List Char) :=
  splitHierAux (l.length + 1) [] l

/-! ### The parsed tree: JS objects with boolean leaves -/

/-- A value stored in the parsed `tests` object: a boolean leaf or a
nested object.  JS objects are modelled as insertion-ordered association
lists. -/
inductive JSVal where
  | bool : Bool → JSVal
  | obj : List (String × JSVal) → JSVal

/-- The type of the `tests` object built by the parser. -/
abbrev JSObj := List (String × JSVal)

/-- JS own-property read `obj[key]` (`none` models `undefined`). -/
def lookupKey : JSObj → String → Option JSVal
  | [], _ => none
  | (k2, v2) :: rest, k => if k2 = k then some v2 else lookupKey rest k

/-- JS property write `obj[key] = v`: overwrite in place if the key
exists, otherwise append (insertion order). -/
def setKey : JSObj → String → JSVal → JSObj
  | [], k, v => [(k, v)]
  | (k2, v2) :: rest, k, v =>
    if k2 = k then (k2, v) :: rest else (k2, v2) :: setKey rest k v

/-- Walking the remaining path inside a freshly created `{}`: every
lookup misses, so nested objects are created down to the leaf. -/
def freshPath : List String → Bool → JSObj
  | [], _ => []
  | [last], b => [(last, JSVal.bool b)]
  | level :: rest, b => [(level, JSVal.obj (freshPath rest b))]

/-- The `hierarchy.forEach` insertion loop of `parseGradleTestResults`,
including its JavaScript quirks: the replacement test is the falsy check
`!currentLevel[level]`, so a `false` leaf (like a missing key) is
replaced by `{}`, while a `true` leaf is kept and `currentLevel` becomes
the primitive `true`.  Writing a property on a boolean primitive is
silently discarded (sloppy mode), but reading or writing a property of
the resulting `undefined` throws a `TypeError`, which is modelled as
`Except.error`. -/
def insertPath (m : JSObj) (path : List String) (b : Bool) : Except String JSObj :=
  match path with
  | [] => .ok m
  | [last] => .ok (setKey m last (JSVal.bool b))
  | level :: r2 :: rs =>
    match lookupKey m level with
    | some (JSVal.obj m2) =>
      match insertPath m2 (r2 :: rs) b with
      | .ok m2' => .ok (setKey m level (JSVal.obj m2'))
      | .error e => .error e
    | some (JSVal.bool true) =>
      match rs with
      | [] => .ok m
      | [last] =>
        .error ("TypeError: Cannot set properties of undefined (setting " ++ last ++ ")")
      | l3 :: _ :: _ =>
        .error ("TypeError: Cannot read properties of undefined (reading " ++ l3 ++ ")")
    | _ => .ok (setKey m level (JSVal.obj (freshPath (r2 :: rs) b)))

/-- `parseGradleTestResults` (identical in both source variants): split
the raw output into lines; for each line, trim it and match it against
`/(.+)\s+(PASSED|FAILED)/`; non-matching lines are ignored; for a match,
split the captured prefix on `/\s+>\s+/` into a path and insert the
boolean leaf along it. -/
def parseGradleTestResults (testResults : String) : Except String JSObj :=
  (splitNl testResults.toList).foldlM
    (fun tests line =>
      match matchLine (jsTrim line) with
      | none => .ok tests
      | some (pre, isPassed) =>
        insertPath tests ((splitHier pre).map (fun seg => String.mk seg)) isPassed)
    []

/-! ### Leaf counting (`countPassedTests`)

The current entry file switches on `typeof value`: an object value is
recursed into, a boolean value is a leaf (counted, and counted as passed
when `true`). -/

/-- `countPassedTests` of the current entry file: returns
`(taskCount, taskPassed)`. -/
def countPassedTests : JSObj → Nat × Nat
  | [] => (0, 0)
  | (_, JSVal.bool b) :: rest =>
    let t := countPassedTests rest
    (t.1 + 1, t.2 + (if b then 1 else 0))
  | (_, JSVal.obj m) :: rest =>
    let c := countPassedTests m
    let t := countPassedTests rest
    (c.1 + t.1, c.2 + t.2)

/-! ### The scoring decision of `run` (current entry file) -/

/-- Overall / per-test status in the result envelope. -/
inductive Status where
  | pass
  | fail
  | error
deriving DecidableEq

/-- The scoring quantities produced by `run` just before the envelope is
built: status, (possibly re-derived) max score, pass threshold, score,
and the optional message. -/
structure ScoreOutcome where
  status : Status
  maxScore : ℚ
  passScore : ℚ
  score : ℚ
  message : Option String
deriving DecidableEq

/-- `getInputs` line `passScore: passScore > 0 ? passScore : maxScore * 0.8`:
the effective pass threshold from the two configured integers. -/
def effectivePassScore (passScoreInput maxScoreInput : Int) : ℚ :=
  if passScoreInput > 0 then (passScoreInput : ℚ) else (maxScoreInput : ℚ) * (8 / 10)

/-- The branch structure of `run` in the current entry file, from the
execution result to the scoring quantities.  `maxScore0` is the parsed
`max-score` input, `passScore0` the effective pass threshold from
`getInputs`, `output` the (trimmed) captured stdout, `error?` the error
recorded by `executeTest`, and `cmp` the output comparison
`compareOutput(output, expectedOutput, comparisonMethod)`, which the
code only invokes on the zero-leaf, no-error path (a thrown comparator
error is `Except.error`, propagating to the top-level catch, as does a
`TypeError` thrown by the parser). -/
def runDecision (maxScore0 : Int) (passScore0 : ℚ) (expectedOutput output : String)
    (error? : Option String) (cmp : String → String → Except String Bool) :
    Except String ScoreOutcome :=
  match parseGradleTestResults output with
  | .error e => .error e
  | .ok tests =>
    let counts := countPassedTests tests
    let taskCount := counts.1
    let taskPassed := counts.2
    if 0 < taskCount then
      -- `if (maxScore === 0)`: lazy mode, full auto
      if maxScore0 = 0 then
        if (taskPassed : ℚ) < (taskCount : ℚ) * (8 / 10) then
          .ok ⟨.fail, (taskCount : ℚ), (taskCount : ℚ) * (8 / 10), (taskPassed : ℚ),
            some "You need earn more score."⟩
        else
          .ok ⟨.pass, (taskCount : ℚ), (taskCount : ℚ) * (8 / 10), (taskPassed : ℚ), none⟩
      else
        if ((taskPassed : ℚ) / (taskCount : ℚ)) * (maxScore0 : ℚ) < passScore0 then
          .ok ⟨.fail, (maxScore0 : ℚ), passScore0,
            ((taskPassed : ℚ) / (taskCount : ℚ)) * (maxScore0 : ℚ),
            some "You need earn more score."⟩
        else
          .ok ⟨.pass, (maxScore0 : ℚ), passScore0,
            ((taskPassed : ℚ) / (taskCount : ℚ)) * (maxScore0 : ℚ), none⟩
    else
      -- no task found, fall back to io handling
      match error? with
      | some e => .ok ⟨.error, (maxScore0 : ℚ), passScore0, 0, some e⟩
      | none =>
        match cmp output expectedOutput with
        | .error m => .error m
        | .ok true => .ok ⟨.pass, (maxScore0 : ℚ), passScore0, (maxScore0 : ℚ), none⟩
        | .ok false => .ok ⟨.fail, (maxScore0 : ℚ), passScore0, 0,
            some ("Output does not match expected: " ++ expectedOutput ++ " Got: " ++ output)⟩

/-! ### `executeTest` (Process Runner) -/

/-- The execution result consumed by `run`: the (trimmed) captured
stdout and the optional failure description. -/
structure ExecutionResult where
  output : String
  error : Option String
deriving DecidableEq

/-- The timeout classification of `executeTest`:
`e.message.includes('ETIMEDOUT') ? 'Command was killed due to timeout' : e.message`. -/
def normalizeErrorMessage (msg : String) : String :=
  if containsSub msg.toList "ETIMEDOUT".toList then "Command was killed due to timeout"
  else msg

/-- The success path of `executeTest` in both source variants: the raw
stdout is trimmed and no error is recorded. -/
def executeTestSuccess (stdoutStr : String) : ExecutionResult :=
  { output := jsTrimStr stdoutStr, error := none }

/-- The catch handler of `executeTest` in the current entry file, as a
function of the exception data: `stdoutAttached` is `e.stdout` when
present (`none` models a falsy `e.stdout`), `message` is `e.message`.
The handler returns `{ output: e.stdout ? e.stdout.toString().trim() : '',
error: <normalized message> }`. -/
def executeTestCatch (stdoutAttached : Option String) (message : String) : ExecutionResult :=
  { output :=
      match stdoutAttached with
      | some s => jsTrimStr s
      | none => ""
    error := some (normalizeErrorMessage message) }

/-- The catch handler of `executeTest` in the older src/src/main.js
variant: only the normalized message is returned; the captured stdout is
not attached (`output` is the destructured `undefined`, modelled as
`none`). -/
def executeTestCatchMain (message : String) : Option String × Option String :=
  (none, some (normalizeErrorMessage message))

/-! ### `compareOutput` -/

/-- `compareOutput` with the host regular-expression engine abstracted
as `regexTest`: `exact` is string equality, `contains` is the substring
test, `regex` applies the compiled expression, and any other method
throws. -/
def compareOutput (regexTest : String → String → Bool)
    (output expected method : String) : Except String Bool :=
  if method = "exact" then .ok (output == expected)
  else if method = "contains" then .ok (containsSub output.toList expected.toList)
  else if method = "regex" then .ok (regexTest expected output)
  else .error ("Invalid comparison method: " ++ method)

/-! ### The top-level catch and the error envelope -/

/-- The fields of the result envelope that the claims concern (the JSON
also carries `version: 1`, `filename`, `line_no` and the formatted
execution time). -/
structure Envelope where
  status : Status
  maxScore? : Option ℚ
  name : String
  testStatus : Status
  message : Option String
  testCode : String
  score? : Option ℚ
deriving DecidableEq

/-- JS `a || fallback` on an optional string field: `undefined` and the
empty string are falsy. -/
def jsOrString (v : Option String) (fallback : String) : String :=
  match v with
  | none => fallback
  | some s => if s = "" then fallback else s

/-- The envelope built in the top-level `catch` block: status `error`,
no `max_score` and no per-test `score`, name and command falling back to
the placeholders, and the caught exception message. -/
def buildErrorEnvelope (testName? command? input? : Option String) (msg : String) : Envelope :=
  { status := .error
    maxScore? := none
    name := jsOrString testName? "Unknown Test"
    testStatus := .error
    message := some msg
    testCode := jsOrString command? "Unknown Command" ++ " <stdin>" ++ jsOrString input? ""
    score? := none }

/-- The top-level `try`/`catch` of `run`: a successfully built envelope
is emitted as-is; any exception is converted to the error envelope.  The
function is total: every run emits exactly one envelope. -/
def runCatch (tryResult : Except String Envelope)
    (testName? command? input? : Option String) : Envelope :=
  match tryResult with
  | .ok env => env
  | .error msg => buildErrorEnvelope testName? command? input? msg

/-! ### The older variant src/src/main.js -/

/-- JS truthiness of a parsed-tree value (`node[key] ? 1 : 0`). -/
def jsTruthy : JSVal → Bool
  | JSVal.bool b => b
  | JSVal.obj _ => true

/-- `typeof key` for a `for (let key in node)` key: property names are
always strings. -/
def typeofKey (_k : String) : String := "string"

/-- The entries iterated by `for (let key in node[key])` when recursing
into a value: an object contributes its properties; a boolean primitive
has none. -/
def asObjEntries : JSVal → JSObj
  | JSVal.obj m => m
  | JSVal.bool _ => []

/-- `countPassedTests` of src/src/main.js: the switch is on
`typeof key` (not `typeof node[key]`), so neither the `object` nor the
`boolean` case can ever fire. -/
def countPassedTestsMain : JSObj → Nat × Nat
  | [] => (0, 0)
  | (k, v) :: rest =>
    let t := countPassedTestsMain rest
    if typeofKey k = "object" then
      -- dead branch: would recurse into node[key]
      let c := countPassedTestsMain (asObjEntries v)
      (c.1 + t.1, c.2 + t.2)
    else if typeofKey k = "boolean" then
      -- dead branch: would count node[key] as a leaf
      (t.1 + 1, t.2 + (if jsTruthy v then 1 else 0))
    else t
termination_by m => sizeOf m
decreasing_by
  all_goals simp
  all_goals cases v <;> simp [asObjEntries] <;> omega

/-- The outcome of the src/src/main.js `run` branch logic.  The score is
an `Option ℚ` because `taskPassed / taskCount` is evaluated at
`taskCount = 0`, whose IEEE value `NaN` is modelled as `none`. -/
structure MainOutcome where
  status : Status
  maxScore : ℚ
  score : Option ℚ
  message : Option String
deriving DecidableEq

/-- JS division producing `NaN` (modelled as `none`) when the divisor is
zero. -/
def jsDiv (a b : ℚ) : Option ℚ :=
  if b = 0 then none else some (a / b)

/-- The branch structure of `run` in src/src/main.js: error first, then
the output comparison, and only on a successful comparison the parse /
count block, which rescales the score when `taskCount === 0`. -/
def runDecisionMain (maxScore0 : Int) (expectedOutput output : String)
    (error? : Option String) (cmp : String → String → Except String Bool) :
    Except String MainOutcome :=
  match error? with
  | some e => .ok ⟨.error, (maxScore0 : ℚ), some 0, some e⟩
  | none =>
    match cmp output expectedOutput with
    | .error m => .error m
    | .ok false => .ok ⟨.fail, (maxScore0 : ℚ), some 0,
        some ("Output does not match expected: " ++ expectedOutput ++ " Got: " ++ output)⟩
    | .ok true =>
      match parseGradleTestResults output with
      | .error e => .error e
      | .ok tests =>
        let counts := countPassedTestsMain tests
        if counts.1 = 0 then
          if maxScore0 = 0 then
            .ok ⟨.pass, (counts.1 : ℚ), some (counts.2 : ℚ), none⟩
          else
            .ok ⟨.pass, (maxScore0 : ℚ), jsDiv (counts.2 : ℚ) (counts.1 : ℚ), none⟩
        else
          .ok ⟨.pass, (maxScore0 : ℚ), some (maxScore0 : ℚ), none⟩

end IOGrader

/-! ## Helper lemmas -/

namespace IOGrader

/-- Evaluation of the parser on a one-leaf output. -/
theorem parse_single_passed : parseGradleTestResults "A PASSED" = .ok [("A", JSVal.bool true)] :=
  rfl

/-- Evaluation of the parser on a two-leaf output. -/
theorem parse_two_leaves :
    parseGradleTestResults "A PASSED\nB FAILED" =
      .ok [("A", JSVal.bool true), ("B", JSVal.bool false)] :=
  rfl

/-- Evaluation of the parser on unstructured output. -/
theorem parse_hello : parseGradleTestResults "hello" = .ok [] :=
  rfl

end IOGrader

/-! ## Claims C1, C2, C3, C9: the scoring branches of `run` -/

namespace IOGrader

/-- C1 counterexample: with configured max-score `-1` (non-positive but
not zero) and one passed leaf, `run` takes the weighted branch, not the
lazy branch: the emitted max score stays `-1` (not the task count `1`)
and the score is `(1/1) * -1 = -1` (not the passed count `1`), so the
run fails — refuting that every configured max-score `≤ 0` triggers
lazy mode. -/
theorem claimC1_counterexample :
    runDecision (-1) (effectivePassScore 0 (-1)) "" "A PASSED" none (fun _ _ => .ok true) =
      .ok ⟨.fail, -1, -1 * (8 / 10), -1, some "You need earn more score."⟩ ∧
    runDecision (-1) (effectivePassScore 0 (-1)) "" "A PASSED" none (fun _ _ => .ok true) ≠
      .ok ⟨.pass, 1, 1 * (8 / 10), 1, none⟩ := by
  have h : runDecision (-1) (effectivePassScore 0 (-1)) "" "A PASSED" none (fun _ _ => .ok true) =
      .ok ⟨.fail, -1, -1 * (8 / 10), -1, some "You need earn more score."⟩ := by
    rw [runDecision, parse_single_passed]
    norm_num [countPassedTests, effectivePassScore]
  refine ⟨h, ?_⟩
  rw [h]
  simp

/-- C1 (amended): when the parsed tree has at least one leaf and the
configured max-score is exactly `0` (in particular when the input is
unset), `run` derives `maxScore = taskCount`,
`passScore = taskCount * 0.8`, `score = taskPassed`, and fails exactly
when the score is below the threshold; the configured pass threshold is
ignored. -/
theorem claimC1_amended :
    ∀ (passScore0 : ℚ) (expectedOutput output : String) (error? : Option String)
      (cmp : String → String → Except String Bool) (tests : JSObj) (tc tp : Nat),
      parseGradleTestResults output = .ok tests →
      countPassedTests tests = (tc, tp) →
      0 < tc →
      runDecision 0 passScore0 expectedOutput output error? cmp =
        .ok ⟨if (tp : ℚ) < (tc : ℚ) * (8 / 10) then .fail else .pass,
             (tc : ℚ), (tc : ℚ) * (8 / 10), (tp : ℚ),
             if (tp : ℚ) < (tc : ℚ) * (8 / 10) then some "You need earn more score." else none⟩ := by
  intro ps exp out err cmp tests tc tp hparse hcount htc
  rw [runDecision.eq_def, hparse]
  simp only [hcount, htc, if_true, if_pos]
  by_cases h : (tp : ℚ) < (tc : ℚ) * (8 / 10) <;> simp [h]

/-- C1 witness: two leaves, one passed, max-score `0`: lazy mode gives
max score `2`, threshold `1.6`, score `1`, status fail; the configured
threshold (here `37`) is ignored. -/
theorem claimC1_witness :
    runDecision 0 (37 : ℚ) "" "A PASSED\nB FAILED" none (fun _ _ => .ok true) =
      .ok ⟨if ((1 : Nat) : ℚ) < ((2 : Nat) : ℚ) * (8 / 10) then .fail else .pass,
           ((2 : Nat) : ℚ), ((2 : Nat) : ℚ) * (8 / 10), ((1 : Nat) : ℚ),
           if ((1 : Nat) : ℚ) < ((2 : Nat) : ℚ) * (8 / 10) then some "You need earn more score."
           else none⟩ :=
  claimC1_amended 37 "" "A PASSED\nB FAILED" none (fun _ _ => .ok true)
    [("A", JSVal.bool true), ("B", JSVal.bool false)] 2 1 parse_two_leaves
    (by simp [countPassedTests]) (by norm_num)

/-- C2: when the parsed tree has at least one leaf and the configured
max-score is positive, the score is `(taskPassed / taskCount) * maxScore`,
the pass threshold is the configured pass-score when positive and
`0.8 * maxScore` otherwise, and the status is `fail` exactly when
`score < passScore` (and `pass` otherwise). -/
theorem claimC2_hierarchy_scoring :
    ∀ (maxScore0 passScoreInput : Int) (expectedOutput output : String)
      (error? : Option String) (cmp : String → String → Except String Bool)
      (tests : JSObj) (tc tp : Nat),
      parseGradleTestResults output = .ok tests →
      countPassedTests tests = (tc, tp) →
      0 < tc →
      0 < maxScore0 →
      (runDecision maxScore0 (effectivePassScore passScoreInput maxScore0)
          expectedOutput output error? cmp =
        .ok ⟨if ((tp : ℚ) / (tc : ℚ)) * (maxScore0 : ℚ) <
                effectivePassScore passScoreInput maxScore0 then .fail else .pass,
             (maxScore0 : ℚ), effectivePassScore passScoreInput maxScore0,
             ((tp : ℚ) / (tc : ℚ)) * (maxScore0 : ℚ),
             if ((tp : ℚ) / (tc : ℚ)) * (maxScore0 : ℚ) <
                effectivePassScore passScoreInput maxScore0 then
               some "You need earn more score." else none⟩) ∧
      (0 < passScoreInput → effectivePassScore passScoreInput maxScore0 = (passScoreInput : ℚ)) ∧
      (passScoreInput ≤ 0 →
        effectivePassScore passScoreInput maxScore0 = (maxScore0 : ℚ) * (8 / 10)) := by
  intro mx psIn exp out err cmp tests tc tp hparse hcount htc hmx
  refine ⟨?_, ?_, ?_⟩
  · rw [runDecision.eq_def, hparse]
    have hmx0 : ¬(mx = 0) := by omega
    simp only [hcount, htc, if_true, if_pos, hmx0, if_false, if_neg]
    by_cases h : ((tp : ℚ) / (tc : ℚ)) * (mx : ℚ) < effectivePassScore psIn mx <;> simp [h]
  · intro h
    simp [effectivePassScore, h]
  · intro h
    have : ¬(0 < psIn) := by omega
    simp [effectivePassScore, this]

/-- C2 witness: two leaves, one passed, max-score `4`, pass-score unset
(`0`): score `2`, threshold `3.2`, status fail, and the two threshold
clauses hold at `psIn = 0` and at `psIn = 3`. -/
theorem claimC2_witness :
    (runDecision 4 (effectivePassScore 0 4) "" "A PASSED\nB FAILED" none (fun _ _ => .ok true) =
      .ok ⟨if (((1 : Nat) : ℚ) / ((2 : Nat) : ℚ)) * ((4 : Int) : ℚ) <
              effectivePassScore 0 4 then .fail else .pass,
           ((4 : Int) : ℚ), effectivePassScore 0 4,
           (((1 : Nat) : ℚ) / ((2 : Nat) : ℚ)) * ((4 : Int) : ℚ),
           if (((1 : Nat) : ℚ) / ((2 : Nat) : ℚ)) * ((4 : Int) : ℚ) <
              effectivePassScore 0 4 then some "You need earn more score." else none⟩) ∧
    effectivePassScore 0 4 = ((4 : Int) : ℚ) * (8 / 10) := by
  have h := claimC2_hierarchy_scoring 4 0 "" "A PASSED\nB FAILED" none (fun _ _ => .ok true)
    [("A", JSVal.bool true), ("B", JSVal.bool false)] 2 1 parse_two_leaves
    (by simp [countPassedTests]) (by norm_num) (by norm_num)
  exact ⟨h.1, h.2.2 (by norm_num)⟩

/-- C3: when the parsed tree has zero leaves and `executeTest` recorded
an error, the result is status `error` with score `0`; the statement is
universally quantified over the comparator `cmp`, so the output
comparison cannot influence the result (it is not consulted). -/
theorem claimC3_error_short_circuit :
    ∀ (maxScore0 : Int) (passScore0 : ℚ) (expectedOutput output e : String)
      (cmp : String → String → Except String Bool) (tests : JSObj),
      parseGradleTestResults output = .ok tests →
      (countPassedTests tests).1 = 0 →
      runDecision maxScore0 passScore0 expectedOutput output (some e) cmp =
        .ok ⟨.error, (maxScore0 : ℚ), passScore0, 0, some e⟩ := by
  intro mx ps exp out e cmp tests hparse hcount
  rw [runDecision, hparse]
  simp [hcount]

/-- C3 witness: unstructured output `"hello"` (zero leaves) with a
recorded error: the result is `error` with score `0`, even under a
comparator that would itself throw. -/
theorem claimC3_witness :
    runDecision 3 (2 : ℚ) "x" "hello" (some "boom")
        (fun _ _ => .error "Invalid comparison method: ") =
      .ok ⟨.error, ((3 : Int) : ℚ), (2 : ℚ), 0, some "boom"⟩ :=
  claimC3_error_short_circuit 3 2 "x" "hello" "boom"
    (fun _ _ => .error "Invalid comparison method: ") [] parse_hello (by simp [countPassedTests])

/-- C9: when the parsed tree has zero leaves, no execution error was
recorded and the comparator reports a match, the result is status `pass`
with score equal to the configured max-score (so with max-score unset,
i.e. `0`, a passing comparison scores `0`). -/
theorem claimC9_fallback_pass :
    ∀ (maxScore0 : Int) (passScore0 : ℚ) (expectedOutput output : String)
      (cmp : String → String → Except String Bool) (tests : JSObj),
      parseGradleTestResults output = .ok tests →
      (countPassedTests tests).1 = 0 →
      cmp output expectedOutput = .ok true →
      runDecision maxScore0 passScore0 expectedOutput output none cmp =
        .ok ⟨.pass, (maxScore0 : ℚ), passScore0, (maxScore0 : ℚ), none⟩ := by
  intro mx ps exp out cmp tests hparse hcount hcmp
  rw [runDecision, hparse]
  simp [hcount, hcmp]

/-- C9 witness: max-score unset (`0`), unstructured output, matching
comparison: status `pass` with score `0`. -/
theorem claimC9_witness :
    runDecision 0 (0 : ℚ) "hello" "hello" none (fun o e => .ok (o == e)) =
      .ok ⟨.pass, ((0 : Int) : ℚ), (0 : ℚ), ((0 : Int) : ℚ), none⟩ :=
  claimC9_fallback_pass 0 0 "hello" "hello" (fun o e => .ok (o == e)) [] parse_hello
    (by simp [countPassedTests]) (by simp)

end IOGrader

/-! ## Claim C10: the src/src/main.js leaf counter is inert -/

namespace IOGrader

/-- In src/src/main.js the counting switch is on `typeof key`, which is
always the string `"string"`, so no branch fires and the counts stay at
zero for every tree. -/
theorem countPassedTestsMain_eq_zero : ∀ tree : JSObj, countPassedTestsMain tree = (0, 0) := by
  intro tree
  induction tree with
  | nil => simp [countPassedTestsMain]
  | cons head rest ih =>
    obtain ⟨k, v⟩ := head
    rw [countPassedTestsMain]
    simp [typeofKey, ih]

/-- C10: in the src/src/main.js version the counting traversal yields
`taskCount = 0` and `taskPassed = 0` for every input tree, so the
hierarchy branch that would keep the score at the max-score is never
taken, and the status of every run that produces an outcome without an
execution error is decided solely by the output comparison. -/
theorem claimC10_main_counts_nothing :
    (∀ tree : JSObj, countPassedTestsMain tree = (0, 0)) ∧
    (∀ (maxScore0 : Int) (expectedOutput output : String)
      (cmp : String → String → Except String Bool) (b : Bool) (outcome : MainOutcome),
      cmp output expectedOutput = .ok b →
      runDecisionMain maxScore0 expectedOutput output none cmp = .ok outcome →
      outcome.status = (if b then Status.pass else Status.fail)) := by
  refine ⟨countPassedTestsMain_eq_zero, ?_⟩
  intro mx exp out cmp b outcome hcmp hrun
  rw [runDecisionMain.eq_def] at hrun
  simp only [hcmp] at hrun
  cases b
  · simp only [] at hrun
    cases hrun
    rfl
  · cases hp : parseGradleTestResults out with
    | error e => rw [hp] at hrun; cases hrun
    | ok tests =>
      rw [hp] at hrun
      by_cases hmx : mx = 0 <;>
        simp [hmx, countPassedTestsMain_eq_zero tests] at hrun <;>
        rw [← hrun] <;> simp

/-- C10 witness: a matching exact comparison with max-score `5` and
unstructured output: the emitted status is `pass` (decided by the
comparison alone). -/
theorem claimC10_witness :
    (MainOutcome.mk Status.pass ((5 : Int) : ℚ) (jsDiv ((0 : Nat) : ℚ) ((0 : Nat) : ℚ))
        none).status = (if true then Status.pass else Status.fail) :=
  claimC10_main_counts_nothing.2 5 "hello" "hello" (fun o e => .ok (o == e)) true
    ⟨Status.pass, ((5 : Int) : ℚ), jsDiv ((0 : Nat) : ℚ) ((0 : Nat) : ℚ), none⟩
    (by simp)
    (by rw [runDecisionMain.eq_def]
        simp [parse_hello, countPassedTestsMain])

end IOGrader

/-! ## Claims C6, C7: the `executeTest` catch handler -/

namespace IOGrader

/-- C6: whenever the test command fails, the catch handler of
`executeTest` (current entry file) returns the trimmed partial stdout
attached to the exception together with the (normalized) error message;
when no stdout is attached the output is the empty string.  The captured
output is never discarded. -/
theorem claimC6_partial_output_preserved :
    ∀ (s msg : String),
      (executeTestCatch (some s) msg).output = jsTrimStr s ∧
      (executeTestCatch (some s) msg).error = some (normalizeErrorMessage msg) ∧
      (executeTestCatch none msg).output = "" ∧
      (executeTestCatch none msg).error = some (normalizeErrorMessage msg) := by
  intro s msg
  exact ⟨rfl, rfl, rfl, rfl⟩

/-- C7 counterexample: a failure whose raw message is exactly
`"Command was killed due to timeout"` does not contain `ETIMEDOUT`
(so it does not indicate a time-based kill), yet the returned message
equals the fixed timeout string — refuting the claimed
"if and only if". -/
theorem claimC7_counterexample :
    normalizeErrorMessage "Command was killed due to timeout" =
      "Command was killed due to timeout" ∧
    containsSub ("Command was killed due to timeout".toList) ("ETIMEDOUT".toList) = false :=
  ⟨rfl, rfl⟩

/-- C7 (amended): if the raw failure message contains `ETIMEDOUT` the
returned message is the fixed string `"Command was killed due to
timeout"`; otherwise the raw message is preserved unchanged (which makes
the returned message equal to the fixed string also when the raw message
happens to equal it). -/
theorem claimC7_amended :
    ∀ msg : String,
      (containsSub msg.toList ("ETIMEDOUT".toList) = true →
        normalizeErrorMessage msg = "Command was killed due to timeout") ∧
      (containsSub msg.toList ("ETIMEDOUT".toList) = false →
        normalizeErrorMessage msg = msg) := by
  intro msg
  constructor <;> intro h
  · unfold normalizeErrorMessage
    rw [if_pos h]
  · have h2 : ¬(containsSub msg.toList ("ETIMEDOUT".toList) = true) := by simpa using h
    unfold normalizeErrorMessage
    rw [if_neg h2]

/-- C7 witness: a message containing `ETIMEDOUT` is normalized to the
fixed timeout string. -/
theorem claimC7_witness :
    normalizeErrorMessage "spawnSync /bin/sh ETIMEDOUT" = "Command was killed due to timeout" :=
  (claimC7_amended "spawnSync /bin/sh ETIMEDOUT").1 rfl

end IOGrader

/-! ## Claim C8: the top-level catch always emits an error envelope -/

namespace IOGrader

/-- C8: every exception caught at the top level is converted into the
error envelope (the total function `runCatch` emits exactly one envelope
per run); an error envelope has status `error`, carries the exception
message (non-empty whenever the thrown message is), uses the placeholder
name and command when the configuration is not yet known; and the
messages thrown by the configuration validation and comparator
misconfiguration are never empty. -/
theorem claimC8_error_envelope :
    (∀ (tryResult : Except String Envelope) (t? c? i? : Option String) (msg : String),
      tryResult = .error msg →
      runCatch tryResult t? c? i? = buildErrorEnvelope t? c? i? msg) ∧
    (∀ (t? c? i? : Option String) (msg : String), msg ≠ "" →
      (buildErrorEnvelope t? c? i? msg).status = .error ∧
      (buildErrorEnvelope t? c? i? msg).testStatus = .error ∧
      ∃ m, (buildErrorEnvelope t? c? i? msg).message = some m ∧ m ≠ "") ∧
    (∀ msg : String,
      (buildErrorEnvelope none none none msg).name = "Unknown Test" ∧
      (buildErrorEnvelope none none none msg).testCode = "Unknown Command <stdin>") ∧
    (∀ method : String, "Invalid comparison method: " ++ method ≠ "") := by
  refine ⟨?_, ?_, ?_, ?_⟩
  · intro tr t? c? i? msg h
    rw [h]
    rfl
  · intro t? c? i? msg h
    exact ⟨rfl, rfl, msg, rfl, h⟩
  · intro msg
    exact ⟨rfl, rfl⟩
  · intro method h
    have hl := congrArg String.length h
    rw [String.length_append] at hl
    have h27 : ("Invalid comparison method: ").length = 27 := rfl
    have h0 : ("" : String).length = 0 := rfl
    rw [h27, h0] at hl
    omega

/-- C8 witness: an invalid comparison method thrown before execution
still produces the error envelope with placeholder fields and a
non-empty message. -/
theorem claimC8_witness :
    runCatch (.error "Invalid comparison method: foo") none none none =
      buildErrorEnvelope none none none "Invalid comparison method: foo" ∧
    (buildErrorEnvelope none none none "Invalid comparison method: foo").status = .error ∧
    (buildErrorEnvelope none none none "Invalid comparison method: foo").name = "Unknown Test" :=
  ⟨claimC8_error_envelope.1 _ none none none _ rfl,
   (claimC8_error_envelope.2.1 none none none _ (by decide)).1,
   (claimC8_error_envelope.2.2.1 "Invalid comparison method: foo").1⟩

end IOGrader

/-! ## Claim C5: leaf/branch collisions in the parser -/

namespace IOGrader

/-- C5 counterexample: after `A PASSED` stores a `true` leaf at `A`, the
line `A > B PASSED` does not coerce the leaf into an object — the tree
stays `{A: true}` (the deeper write is silently discarded) — and the
line `A > B > C PASSED` raises a `TypeError` instead of coercing;
refuting that a `true` leaf is coerced without error. -/
theorem claimC5_counterexample :
    parseGradleTestResults "A PASSED\nA > B PASSED" = .ok [("A", JSVal.bool true)] ∧
    parseGradleTestResults "A PASSED\nA > B > C PASSED" =
      .error "TypeError: Cannot set properties of undefined (setting C)" :=
  ⟨rfl, rfl⟩

/-- C5 (amended): a path position holding a `false` leaf is coerced into
a nested object holding the deeper entries without error (the falsy
check `!currentLevel[level]` replaces it with `{}`); a `true` leaf is
not coerced: one extra level is silently discarded, and two or more
extra levels raise a `TypeError`. -/
theorem claimC5_amended :
    (∀ (m : JSObj) (level : String) (rest : List String) (b : Bool),
      lookupKey m level = some (JSVal.bool false) → rest ≠ [] →
      insertPath m (level :: rest) b = .ok (setKey m level (JSVal.obj (freshPath rest b)))) ∧
    (∀ (m : JSObj) (level last : String) (b : Bool),
      lookupKey m level = some (JSVal.bool true) →
      insertPath m [level, last] b = .ok m) ∧
    (∀ (m : JSObj) (level l2 l3 : String) (rest : List String) (b : Bool),
      lookupKey m level = some (JSVal.bool true) →
      ∃ msg, insertPath m (level :: l2 :: l3 :: rest) b = .error msg) ∧
    parseGradleTestResults "A FAILED\nA > B PASSED" =
      .ok [("A", JSVal.obj [("B", JSVal.bool true)])] := by
  refine ⟨?_, ?_, ?_, rfl⟩
  · intro m level rest b hl hr
    cases rest with
    | nil => exact absurd rfl hr
    | cons r rs => simp [insertPath, hl]
  · intro m level last b hl
    simp [insertPath, hl]
  · intro m level l2 l3 rest b hl
    cases rest with
    | nil =>
      exact ⟨"TypeError: Cannot set properties of undefined (setting " ++ l3 ++ ")",
        by simp [insertPath, hl]⟩
    | cons r rs =>
      exact ⟨"TypeError: Cannot read properties of undefined (reading " ++ l3 ++ ")",
        by simp [insertPath, hl]⟩

/-- C5 witness: a `false` leaf at `A` is coerced by the deeper path
`A > B`. -/
theorem claimC5_witness :
    insertPath [("A", JSVal.bool false)] ["A", "B"] true =
      .ok (setKey [("A", JSVal.bool false)] "A" (JSVal.obj (freshPath ["B"] true))) :=
  claimC5_amended.1 [("A", JSVal.bool false)] "A" ["B"] true rfl (by simp)

end IOGrader

/-! ## Claim C4: which lines the parser recognizes, and greediness -/

namespace IOGrader

/-- An index exceeding the length admits no valid capture cut. -/
theorem validCutB_lt_length {l : List Char} {s i : Nat} (h : validCutB l s i = true) :
    i < l.length := by
  by_contra hge
  push_neg at hge
  have hd : l.drop i = [] := List.drop_eq_nil_of_le hge
  simp [validCutB, hd, wsTokenAt, tokenAfterWsAux] at h

/-- Membership in the cut list. -/
theorem mem_cutsFrom {l : List Char} {s i : Nat} :
    i ∈ cutsFrom l s ↔ i < l.length ∧ validCutB l s i = true := by
  unfold cutsFrom
  rw [List.mem_filter, List.mem_range]

/-- The cut list is strictly increasing. -/
theorem cutsFrom_sorted (l : List Char) (s : Nat) : (cutsFrom l s).Pairwise (· < ·) :=
  List.Pairwise.filter _ (List.pairwise_lt_range _)

/-- The last element of a strictly increasing list of naturals is its
maximum. -/
theorem getLast?_sorted_max :
    ∀ L : List Nat, L.Pairwise (· < ·) → ∀ x, L.getLast? = some x → ∀ y ∈ L, y ≤ x := by
  intro L
  induction L with
  | nil => intro _ x hx; cases hx
  | cons a t ih =>
    intro hp x hx y hy
    cases t with
    | nil =>
      have hxa : a = x := by simpa using hx
      have hya : y = a := by simpa using hy
      omega
    | cons b t2 =>
      rw [List.getLast?_cons_cons] at hx
      have hp2 := List.pairwise_cons.mp hp
      rcases List.mem_cons.mp hy with rfl | hy2
      · have hx_mem : x ∈ b :: t2 := List.mem_of_mem_getLast? hx
        have hlt := hp2.1 x hx_mem
        omega
      · exact ih hp2.2 x hx y hy2

/-- C4 counterexample: on the line `A PASSED B FAILED` the capture is
greedy — the parser records the single leaf `{"A PASSED B": false}` —
and not the claimed non-greedy result `{"A": true}`. -/
theorem claimC4_counterexample :
    parseGradleTestResults "A PASSED B FAILED" = .ok [("A PASSED B", JSVal.bool false)] ∧
    parseGradleTestResults "A PASSED B FAILED" ≠ .ok [("A", JSVal.bool true)] := by
  have h : parseGradleTestResults "A PASSED B FAILED" = .ok [("A PASSED B", JSVal.bool false)] :=
    rfl
  refine ⟨h, ?_⟩
  rw [h]
  simp

/-- C4 (amended): the parser recognizes exactly those trimmed lines in
which a nonempty run of `.`-matchable characters is followed by
whitespace and the literal token `PASSED` or `FAILED` (`validCutB`);
other lines admit no valid cut and are ignored; and the captured prefix
is the greedy (longest) one — no longer valid cut exists — so on
`A PASSED B FAILED` the prefix is `A PASSED B` with token `FAILED`. -/
theorem claimC4_amended :
    parseGradleTestResults "A PASSED B FAILED" = .ok [("A PASSED B", JSVal.bool false)] ∧
    (∀ l : List Char, matchLine l = none → ∀ s i, validCutB l s i = false) ∧
    (∀ (l p : List Char) (b : Bool), matchLine l = some (p, b) →
      ∃ s i, validCutB l s i = true ∧ wsTokenAt (l.drop i) = some b ∧
        p = (l.drop s).take (i - s) ∧ ∀ j, i < j → validCutB l s j = false) := by
  refine ⟨rfl, ?_, ?_⟩
  · intro l hm s i
    cases hvc : validCutB l s i with
    | false => rfl
    | true =>
      exfalso
      have hilen : i < l.length := validCutB_lt_length hvc
      have hs1 : s + 1 ≤ i := by
        have := hvc
        simp only [validCutB, Bool.and_eq_true, decide_eq_true_eq] at this
        exact this.1.1
      have hslen : s < l.length := by omega
      have himem : i ∈ cutsFrom l s := mem_cutsFrom.mpr ⟨hilen, hvc⟩
      have hne : cutsFrom l s ≠ [] := List.ne_nil_of_mem himem
      unfold matchLine at hm
      cases hfind : (List.range l.length).find? (fun s2 => !(cutsFrom l s2).isEmpty) with
      | none =>
        have := List.find?_eq_none.mp hfind s (List.mem_range.mpr hslen)
        simp only [Bool.not_eq_true', Bool.not_eq_false] at this
        exact hne (List.isEmpty_iff.mp this)
      | some s2 =>
        rw [hfind] at hm
        have hm2 : (match (cutsFrom l s2).getLast? with
            | some i2 =>
              match wsTokenAt (l.drop i2) with
              | some b2 => some ((l.drop s2).take (i2 - s2), b2)
              | none => none
            | none => none) = (none : Option (List Char × Bool)) := hm
        have hpred := List.find?_some hfind
        simp only [Bool.not_eq_true', Bool.not_eq_false] at hpred
        have hne2 : cutsFrom l s2 ≠ [] := by
          intro h0
          rw [h0] at hpred
          simp at hpred
        cases hlast : (cutsFrom l s2).getLast? with
        | none => exact hne2 (List.getLast?_eq_none_iff.mp hlast)
        | some i2 =>
          rw [hlast] at hm2
          have hv2 : validCutB l s2 i2 = true :=
            (mem_cutsFrom.mp (List.mem_of_mem_getLast? hlast)).2
          have hws2 : (wsTokenAt (l.drop i2)).isSome = true := by
            simp only [validCutB, Bool.and_eq_true] at hv2
            exact hv2.2
          cases hws : wsTokenAt (l.drop i2) with
          | none => rw [hws] at hws2; cases hws2
          | some b2 =>
            have hm3 : (match wsTokenAt (l.drop i2) with
                | some b3 => some ((l.drop s2).take (i2 - s2), b3)
                | none => none) = (none : Option (List Char × Bool)) := hm2
            rw [hws] at hm3
            cases hm3
  · intro l p b hm
    unfold matchLine at hm
    cases hfind : (List.range l.length).find? (fun s2 => !(cutsFrom l s2).isEmpty) with
    | none => rw [hfind] at hm; cases hm
    | some s =>
      rw [hfind] at hm
      have hm2 : (match (cutsFrom l s).getLast? with
          | some i2 =>
            match wsTokenAt (l.drop i2) with
            | some b2 => some ((l.drop s).take (i2 - s), b2)
            | none => none
          | none => none) = some (p, b) := hm
      cases hlast : (cutsFrom l s).getLast? with
      | none => rw [hlast] at hm2; cases hm2
      | some i =>
        rw [hlast] at hm2
        have hm3 : (match wsTokenAt (l.drop i) with
            | some b2 => some ((l.drop s).take (i - s), b2)
            | none => none) = some (p, b) := hm2
        cases hws : wsTokenAt (l.drop i) with
        | none => rw [hws] at hm3; cases hm3
        | some b2 =>
          rw [hws] at hm3
          simp only [Option.some.injEq, Prod.mk.injEq] at hm3
          obtain ⟨hp2, hb2⟩ := hm3
          refine ⟨s, i, (mem_cutsFrom.mp (List.mem_of_mem_getLast? hlast)).2, ?_, hp2.symm, ?_⟩
          · rw [hws, hb2]
          · intro j hij
            cases hvj : validCutB l s j with
            | false => rfl
            | true =>
              exfalso
              have hjlen := validCutB_lt_length hvj
              have hjmem : j ∈ cutsFrom l s := mem_cutsFrom.mpr ⟨hjlen, hvj⟩
              have hle := getLast?_sorted_max _ (cutsFrom_sorted l s) i hlast j hjmem
              omega

/-- C4 witness: the line `A PASSED` is recognized with prefix `A` and
token `PASSED`, and the recognition is exhibited by a valid cut with no
longer one. -/
theorem claimC4_witness :
    ∃ s i, validCutB ("A PASSED".toList) s i = true ∧
      wsTokenAt (("A PASSED".toList).drop i) = some true ∧
      "A".toList = (("A PASSED".toList).drop s).take (i - s) ∧
      ∀ j, i < j → validCutB ("A PASSED".toList) s j = false :=
  claimC4_amended.2.2 ("A PASSED".toList) ("A".toList) true rfl

end IOGrader
